import Mathlib

/-! Pomerium ingress controller: configuration snapshot and reconciliation engine.

Part one is a shallow embedding of `model/ingress_config.go`, the snapshot
`model.IngressConfig` with its accessors `IsSecureUpstream`,
`GetServicePortByName` and `ParseTLSCerts`, and theorems about them.

Part two covers the reconciliation engine of package `controllers`, which
`controllers/controller_test.go` exercises. The engine's own source is not part
of this development; its definitions follow the design document and say so in
their comments.

Conventions of the embedding

* A Go pointer is an `Option`; `none` is the nil pointer.
* A Go map is a function into `Option`; `none` means the key is not in the map
  (a nil map is the function that is `none` everywhere, and reads like an empty map).
* A Go function that may dereference a nil pointer returns a `Run`: either the
  tuple of its results, or `Run.panics`.
* A Go `error` built by `fmt.Errorf` without `%w` points to an
  `errors.errorString`, a struct holding only the formatted message. The
  accessors return the struct pointed to (`errorString`, what `Error()` shows);
  where the identity of the error value under `==` matters, `errorValue` adds
  the number of the `errors.New` call that made it.
* A Go string is a Lean `String` (valid UTF-8 only, which is what the API
  server delivers); a `[]byte` is a list of bytes, the nil slice and the empty
  slice being identified (both have length 0).
-/

namespace Pomerium

/-! ## Go runtime helpers -/

/-- Outcome of running a Go function: its results, or a run-time panic. -/
inductive Run (α : Type) where
  | returns (a : α)
  | panics
deriving DecidableEq, Repr

/-- One byte of a Go `[]byte`. -/
abbrev Byte := Fin 256

/-- A Go `[]byte`. -/
abbrev Bytes := List Byte

/-- The struct `errors.errorString` that an error built by `errors.New` /
`fmt.Errorf` points to: only a message. Two of them are equal when their
texts are; the pointers to them, which Go's `==` compares, are `errorValue`. -/
structure errorString where
  s : String
deriving DecidableEq, Repr

/-- Index expression `m[k]` on a `map[K]string`: the zero value `""` when the key is missing. -/
def indexString {κ : Type} (m : κ → Option String) (k : κ) : String :=
  match m k with
  | some v => v
  | none => ""

/-- Index expression `m[k]` on a `map[K][]byte`: the nil slice when the key is missing. -/
def indexBytes {κ : Type} (m : κ → Option Bytes) (k : κ) : Bytes :=
  match m k with
  | some v => v
  | none => []

/-- Index expression `m[k]` on a `map[K]*T`: the nil pointer when the key is
missing, the stored pointer (possibly nil) otherwise. -/
def indexPtr {κ ν : Type} (m : κ → Option (Option ν)) (k : κ) : Option ν :=
  match m k with
  | some p => p
  | none => none

/-- Go `unicode.ToLower`. Runes up to `unicode.MaxASCII` take the fast path
written out in the standard library (`'A'..'Z'` are shifted by `'a' - 'A'`,
every other ASCII rune is returned unchanged); beyond ASCII the result comes
from the Unicode case tables, which are the parameter `tbl`. -/
def unicodeToLower (tbl : Char → Char) (r : Char) : Char :=
  if r.toNat ≤ 127 then
    if 65 ≤ r.toNat ∧ r.toNat ≤ 90 then Char.ofNat (r.toNat + 32) else r
  else tbl r

/-- Go `strings.ToLower`: every rune mapped through `unicode.ToLower`. -/
def stringsToLower (tbl : Char → Char) (s : String) : String :=
  String.mk (s.data.map (unicodeToLower tbl))

/-! ## Kubernetes objects (the fields this repository reads or sets) -/

/-- `types.NamespacedName`. -/
structure NamespacedName where
  Namespace : String
  Name : String
deriving DecidableEq, Repr

/-- `types.NamespacedName.String`: namespace, the separator `/`, name. -/
def NamespacedName.String (n : NamespacedName) : String :=
  n.Namespace ++ "/" ++ n.Name

/-- `corev1.ServicePort`. -/
structure ServicePort where
  Name : String
  Protocol : String
  Port : Int
  TargetPort : Int
deriving DecidableEq, Repr

/-- `corev1.ServiceSpec`. -/
structure ServiceSpec where
  Ports : List ServicePort
deriving DecidableEq, Repr

/-- `corev1.Service`. -/
structure Service where
  Name : String
  Namespace : String
  Spec : ServiceSpec
deriving DecidableEq, Repr

/-- `corev1.Secret`; `Type_` is the field `Type` (a reserved word here). -/
structure Secret where
  Name : String
  Namespace : String
  Data : String → Option Bytes
  Type_ : String

/-- `corev1.SecretTypeTLS`. -/
def SecretTypeTLS : String := "kubernetes.io/tls"

/-- `corev1.TLSPrivateKeyKey`. -/
def TLSPrivateKeyKey : String := "tls.key"

/-- `corev1.TLSCertKey`. -/
def TLSCertKey : String := "tls.crt"

/-- `networkingv1.IngressTLS`. -/
structure IngressTLS where
  Hosts : List String
  SecretName : String
deriving DecidableEq, Repr

/-- `networkingv1.ServiceBackendPort`. -/
structure ServiceBackendPort where
  Name : String
  Number : Int
deriving DecidableEq, Repr

/-- `networkingv1.IngressServiceBackend`. -/
structure IngressServiceBackend where
  Name : String
  Port : ServiceBackendPort
deriving DecidableEq, Repr

/-- `networkingv1.IngressBackend`. -/
structure IngressBackend where
  Service : Option IngressServiceBackend
deriving DecidableEq, Repr

/-- `networkingv1.HTTPIngressPath`. -/
structure HTTPIngressPath where
  Path : String
  PathType : Option String
  Backend : IngressBackend
deriving DecidableEq, Repr

/-- `networkingv1.IngressRule`; `HTTP` is the pointer to the rule value, holding its paths. -/
structure IngressRule where
  Host : String
  HTTP : Option (List HTTPIngressPath)
deriving DecidableEq, Repr

/-- `networkingv1.IngressSpec`. -/
structure IngressSpec where
  IngressClassName : Option String
  DefaultBackend : Option IngressBackend
  TLS : List IngressTLS
  Rules : List IngressRule
deriving DecidableEq, Repr

/-- `networkingv1.Ingress`. -/
structure Ingress where
  Name : String
  Namespace : String
  Annotations : String → Option String
  Spec : IngressSpec

/-! ## `model/ingress_config.go` -/

/-- `model.TLSCustomCASecret`. -/
def TLSCustomCASecret : String := "tls_custom_ca_secret"

/-- `model.TLSClientSecret`. -/
def TLSClientSecret : String := "tls_client_secret"

/-- `model.TLSDownstreamClientCASecret`. -/
def TLSDownstreamClientCASecret : String := "tls_downstream_client_ca_secret"

/-- `model.SecureUpstream`: indicates that service communication should happen over HTTPS. -/
def SecureUpstream : String := "secure_upstream"

/-- `model.IngressConfig`: ingress and all other required resources. -/
structure IngressConfig where
  AnnotationPrefix : String
  Ingress : Option Ingress
  Secrets : NamespacedName → Option (Option Secret)
  Services : NamespacedName → Option (Option Service)

/-- The key `fmt.Sprintf("%s/secure_upstream", ic.AnnotationPrefix)`. -/
def secureUpstreamKey (pfx : String) : String :=
  pfx ++ "/secure_upstream"

/-- `IngressConfig.IsSecureUpstream`. Reading `ic.Ingress.Annotations` through a
nil ingress pointer panics. -/
def IsSecureUpstream (tbl : Char → Char) (ic : IngressConfig) : Run Bool :=
  match ic.Ingress with
  | none => .panics
  | some ing =>
    .returns (decide (stringsToLower tbl
      (indexString ing.Annotations (secureUpstreamKey ic.AnnotationPrefix)) = "true"))

/-- The message of the error for a service that is not in the snapshot. -/
def serviceNotFetchedMsg (name : NamespacedName) : String :=
  "service " ++ name.String ++ " was not pre-fetched, this is a bug"

/-- The message of the error for a port name the service does not declare. -/
def portNotFoundMsg (port : String) (name : NamespacedName) : String :=
  "could not find port " ++ port ++ " on service " ++ name.String

/-- The loop of `GetServicePortByName` over `svc.Spec.Ports`: the `Port` of the
first port whose name equals `port`, or `none` when the loop runs to its end. -/
def findServicePort (port : String) : List ServicePort → Option Int
  | [] => none
  | servicePort :: rest =>
    if servicePort.Name = port then some servicePort.Port
    else findServicePort port rest

/-- `IngressConfig.GetServicePortByName`: returns service named port. The
result is the pair `(int32, error)`; a key stored with a nil service pointer
panics at `svc.Spec`. -/
def GetServicePortByName (ic : IngressConfig) (name : NamespacedName) (port : String) :
    Run (Int × Option errorString) :=
  match ic.Services name with
  | none => .returns (0, some ⟨serviceNotFetchedMsg name⟩)
  | some none => .panics
  | some (some svc) =>
    match findServicePort port svc.Spec.Ports with
    | some p => .returns (p, none)
    | none => .returns (0, some ⟨portNotFoundMsg port name⟩)

/-- `model.TLSCert`: a parsed TLS secret. -/
structure TLSCert where
  Key : Bytes
  Cert : Bytes
deriving DecidableEq, Repr

/-- The message of the error for a TLS secret that is not in the snapshot. -/
def secretNotFetchedMsg (secretName : String) : String :=
  "secret=" ++ secretName ++ ", but the secret wasn't fetched. this is a bug"

/-- The message of the error for a secret whose type is not `kubernetes.io/tls`. -/
def secretTypeMsg (secretName : String) (actual : String) : String :=
  "secret=" ++ secretName ++ ", expected type " ++ SecretTypeTLS ++ ", got " ++ actual

/-- The loop of `ParseTLSCerts` over `ic.Ingress.Spec.TLS`, started with the
certificates appended so far. The result is the pair `([]*TLSCert, error)`,
where `none` in the first component is the nil slice. -/
def parseTLSLoop (secrets : NamespacedName → Option (Option Secret)) (ns : String) :
    List IngressTLS → List TLSCert → Option (List TLSCert) × Option errorString
  | [], certs => (some certs, none)
  | tls :: rest, certs =>
    match indexPtr secrets ⟨ns, tls.SecretName⟩ with
    | none => (none, some ⟨secretNotFetchedMsg tls.SecretName⟩)
    | some secret =>
      if secret.Type_ ≠ SecretTypeTLS then
        (none, some ⟨secretTypeMsg tls.SecretName secret.Type_⟩)
      else
        parseTLSLoop secrets ns rest
          (certs ++ [⟨indexBytes secret.Data TLSPrivateKeyKey, indexBytes secret.Data TLSCertKey⟩])

/-- `IngressConfig.ParseTLSCerts`: decodes K8s TLS secrets. Reading
`ic.Ingress.Spec.TLS` through a nil ingress pointer panics. -/
def ParseTLSCerts (ic : IngressConfig) :
    Run (Option (List TLSCert) × Option errorString) :=
  match ic.Ingress with
  | none => .panics
  | some ing => .returns (parseTLSLoop ic.Secrets ing.Namespace ing.Spec.TLS [])

/-- The certificate pair `ParseTLSCerts` appends for a secret. -/
def certOf (secret : Secret) : TLSCert :=
  ⟨indexBytes secret.Data TLSPrivateKeyKey, indexBytes secret.Data TLSCertKey⟩

/-- A TLS entry the loop of `ParseTLSCerts` stops at: the snapshot holds no
secret object under the entry's name in namespace `ns` (the key is missing, or
stored with a nil pointer), or the secret found there is not of type
`kubernetes.io/tls`. -/
def Offending (secrets : NamespacedName → Option (Option Secret)) (ns : String)
    (tls : IngressTLS) : Prop :=
  indexPtr secrets ⟨ns, tls.SecretName⟩ = none ∨
    ∃ secret, indexPtr secrets ⟨ns, tls.SecretName⟩ = some secret ∧ secret.Type_ ≠ SecretTypeTLS

/-- The sixteen spellings of `true` in upper- and lower-case letters. -/
def trueSpellings : List String :=
  ["true", "truE", "trUe", "trUE", "tRue", "tRuE", "tRUe", "tRUE",
   "True", "TruE", "TrUe", "TrUE", "TRue", "TRuE", "TRUe", "TRUE"]

/-- What the theorems on `IsSecureUpstream` need from the Unicode case tables:
no rune beyond ASCII has one of the letters `t`, `r`, `u`, `e` as its lower
case (in Unicode the only such letters are `i` and `k`). -/
def LowerTableAvoidsTrue (tbl : Char → Char) : Prop :=
  ∀ r : Char, 127 < r.toNat → tbl r ∉ ['t', 'r', 'u', 'e']

/-- Two lookups of a referenced secret agree on what `ParseTLSCerts` reads: both
find no secret, or both find one, with the same type and the same `tls.key`
and `tls.crt` bytes. -/
def SameTLSMaterial : Option Secret → Option Secret → Prop
  | none, none => True
  | some a, some b =>
    a.Type_ = b.Type_ ∧ indexBytes a.Data "tls.key" = indexBytes b.Data "tls.key" ∧
      indexBytes a.Data "tls.crt" = indexBytes b.Data "tls.crt"
  | _, _ => False

/-- The map `secrets` without the keys that are stored with a nil pointer. -/
def withoutNil (secrets : NamespacedName → Option (Option Secret)) :
    NamespacedName → Option (Option Secret) :=
  fun n =>
    match secrets n with
    | some (some secret) => some (some secret)
    | _ => none

/-! ## The reconciliation engine (package `controllers`)

The controller itself is not among the sources, only its test is; this part
follows the design document: the Adoption Resolver (§4.2), the Config
Builder (§4.3), the Dependency Registry (§4.1) and the Reconciliation Engine
(§4.4). One pass of the engine is a function from the engine state and the
object cache to the new state and the calls made on the external reconciler,
which is taken to accept every call (as the mock of the controller test does).
-/

/-- Modelled from the spec: the dependency kinds of §3; the registry is missing from the sources. -/
inductive DependencyKind where
  | service
  | secret
  | routingClass
deriving DecidableEq, Repr

/-- Modelled from the spec: a dependency edge (parent, kind, dependency) of §3. -/
structure Edge where
  parent : NamespacedName
  kind : DependencyKind
  dep : NamespacedName
deriving DecidableEq, Repr

/-- Modelled from the spec: the Dependency Registry (§4.1, `model.NewRegistry`
in the test), missing from the sources: the set of current edges, from which
both of its mappings are read. -/
structure Registry where
  edges : List Edge
deriving DecidableEq, Repr

/-- Modelled from the spec: `setEdges` (§4.1) replaces the edges of one kind of
`parent` by the new dependency set; other kinds and other parents are untouched. -/
def Registry.setEdges (r : Registry) (parent : NamespacedName) (kind : DependencyKind)
    (deps : List NamespacedName) : Registry :=
  ⟨r.edges.filter (fun e => !(decide (e.parent = parent) && decide (e.kind = kind))) ++
    deps.map (fun d => ⟨parent, kind, d⟩)⟩

/-- Modelled from the spec: the identity (namespace, name) of an ingress (§3). -/
def Ingress.identity (ing : Ingress) : NamespacedName :=
  ⟨ing.Namespace, ing.Name⟩

/-- Modelled from the spec: the backends of an ingress, "across all rule paths
and the default backend" (§4.3). -/
def backends (ing : Ingress) : List IngressBackend :=
  (ing.Spec.Rules.map (fun rule =>
      match rule.HTTP with
      | some paths => paths.map (fun p => p.Backend)
      | none => [])).flatten ++
    (match ing.Spec.DefaultBackend with
     | some b => [b]
     | none => [])

/-- Modelled from the spec: the service references of an ingress (§4.3): the
identity of each backend service, in the ingress's namespace, with the port asked for. -/
def backendRefs (ing : Ingress) : List (NamespacedName × ServiceBackendPort) :=
  (backends ing).filterMap (fun b =>
    match b.Service with
    | some s => some (⟨ing.Namespace, s.Name⟩, s.Port)
    | none => none)

/-- Modelled from the spec: the referenced service identities, deduplicated (§4.3). -/
def serviceRefs (ing : Ingress) : List NamespacedName :=
  ((backendRefs ing).map (fun b => b.1)).dedup

/-- Modelled from the spec: the referenced secret identities, one per TLS
entry, deduplicated (§4.3). -/
def secretRefs (ing : Ingress) : List NamespacedName :=
  (ing.Spec.TLS.map (fun tls => (⟨ing.Namespace, tls.SecretName⟩ : NamespacedName))).dedup

/-- Modelled from the spec: the failures of a build (§4.3, §7); the builder is missing from the sources. -/
inductive BuildError where
  | transientFetch (kind : DependencyKind) (id : NamespacedName)
  | internalConsistency (kind : DependencyKind) (id : NamespacedName)
  | invalidSecretType (id : NamespacedName)
  | portNotFound (id : NamespacedName) (port : String)
deriving DecidableEq, Repr

/-- Modelled from the spec: the failures of a reconciliation pass (§7). -/
inductive EngineError where
  | build (e : BuildError)
  | adoptionAmbiguity
deriving DecidableEq, Repr

/-- Modelled from the spec: what one pass does to the external reconciler (§6):
nothing, `Upsert` of a snapshot, `Delete` of an identity, or it fails and is retried. -/
inductive Action where
  | none
  | upsert (ic : IngressConfig)
  | delete (name : NamespacedName)
  | failed (e : EngineError)

/-- Modelled from the spec: is the call of a pass a `Delete` (§6). -/
def Action.isDelete : Action → Bool
  | .delete _ => true
  | _ => false

/-- Modelled from the spec: the mutable state of the engine (§5): the
Dependency Registry and the identities in state Adopted. -/
structure EngineState where
  registry : Registry
  adopted : List NamespacedName
deriving DecidableEq, Repr

/-- Modelled from the spec: the state after a successful build of `ing` (§3):
its edges are wholly replaced and it is Adopted. -/
def recordBuild (st : EngineState) (ing : Ingress) : EngineState :=
  { registry :=
      ((st.registry.setEdges ing.identity .service (serviceRefs ing)).setEdges
        ing.identity .secret (secretRefs ing)).setEdges ing.identity .routingClass
        (match ing.Spec.IngressClassName with
         | some n => [⟨"", n⟩]
         | none => [])
    adopted := if ing.identity ∈ st.adopted then st.adopted else ing.identity :: st.adopted }

/-- The engine state records `ing` as Adopted under `id`, with the edges to the
services and secrets it references, as after its last successful build. -/
def Tracks (st : EngineState) (id : NamespacedName) (ing : Ingress) : Prop :=
  id ∈ st.adopted ∧
  (∀ dep ∈ serviceRefs ing, (⟨id, .service, dep⟩ : Edge) ∈ st.registry.edges) ∧
  (∀ dep ∈ secretRefs ing, (⟨id, .secret, dep⟩ : Edge) ∈ st.registry.edges)

/-! ## Concrete objects (those of `initialTestObjects` in the controller test, and variants) -/

/-- The TLS secret `default/secret` of the controller test: key and certificate are both `"A"`. -/
def testSecret : Secret where
  Name := "secret"
  Namespace := "default"
  Data := fun k => if k = "tls.key" then some [65] else if k = "tls.crt" then some [65] else none
  Type_ := "kubernetes.io/tls"

/-- The service `default/service` of the controller test, after its port `http` was set to 8080. -/
def testService : Service where
  Name := "service"
  Namespace := "default"
  Spec := ⟨[⟨"http", "TCP", 8080, 80⟩]⟩

/-- The ingress `default/ingress` of the controller test. -/
def testIngress : Ingress where
  Name := "ingress"
  Namespace := "default"
  Annotations := fun _ => none
  Spec :=
    { IngressClassName := some "pomerium"
      DefaultBackend := none
      TLS := [⟨["service.localhost.pomerium.io"], "secret"⟩]
      Rules := [⟨"service.localhost.pomerium.io",
        some [⟨"/", some "Prefix", ⟨some ⟨"service", ⟨"http", 0⟩⟩⟩⟩]⟩] }

/-- The snapshot the controller test expects for `default/ingress`. -/
def testConfig : IngressConfig where
  AnnotationPrefix := "ingress.pomerium.io"
  Ingress := some testIngress
  Secrets := fun n => if n = ⟨"default", "secret"⟩ then some (some testSecret) else none
  Services := fun n => if n = ⟨"default", "service"⟩ then some (some testService) else none

/-- A secret `default/secret` of type `Opaque`. -/
def opaqueSecret : Secret where
  Name := "secret"
  Namespace := "default"
  Data := fun _ => none
  Type_ := "Opaque"

/-- The snapshot of the controller test with the secret replaced by the `Opaque` one. -/
def opaqueConfig : IngressConfig where
  AnnotationPrefix := "ingress.pomerium.io"
  Ingress := some testIngress
  Secrets := fun n => if n = ⟨"default", "secret"⟩ then some (some opaqueSecret) else none
  Services := fun _ => none

/-- An instance of the case tables beyond ASCII, restricted to the two runes
whose lower case is an ASCII letter (KELVIN SIGN U+212A gives `k`, LATIN
CAPITAL LETTER I WITH DOT ABOVE U+0130 gives `i`); other runes are left as they are. -/
def sampleLowerTable (r : Char) : Char :=
  if r.toNat = 0x212A then 'k' else if r.toNat = 0x130 then 'i' else r

/-- The ingress of the controller test, annotated `ingress.pomerium.io/secure_upstream: "True"`. -/
def secureIngress : Ingress where
  Name := "ingress"
  Namespace := "default"
  Annotations := fun k => if k = "ingress.pomerium.io/secure_upstream" then some "True" else none
  Spec := testIngress.Spec

/-- A snapshot holding `secureIngress`. -/
def secureConfig : IngressConfig where
  AnnotationPrefix := "ingress.pomerium.io"
  Ingress := some secureIngress
  Secrets := testConfig.Secrets
  Services := testConfig.Services

/-- The secret of the controller test with the same TLS material, another name
for its object and one more data entry. -/
def testSecretCopy : Secret where
  Name := "copy"
  Namespace := "default"
  Data := fun k =>
    if k = "tls.key" then some [65] else if k = "tls.crt" then some [65]
    else if k = "ca.crt" then some [66] else none
  Type_ := "kubernetes.io/tls"

/-- An ingress with the namespace and TLS secret names of `testIngress`, and
other TLS hosts, annotations, class and rules. -/
def otherIngress : Ingress where
  Name := "other"
  Namespace := "default"
  Annotations := fun k => if k = "a" then some "b" else none
  Spec :=
    { IngressClassName := none
      DefaultBackend := some ⟨some ⟨"fallback", ⟨"", 443⟩⟩⟩
      TLS := [⟨["other.localhost.pomerium.io", "more.localhost.pomerium.io"], "secret"⟩]
      Rules := [] }

/-- A snapshot around `otherIngress`: no services, the copied secret, and one unreferenced secret. -/
def otherConfig : IngressConfig where
  AnnotationPrefix := "x"
  Ingress := some otherIngress
  Secrets := fun n =>
    if n = ⟨"default", "secret"⟩ then some (some testSecretCopy)
    else if n = ⟨"default", "unused"⟩ then some (some opaqueSecret) else none
  Services := fun _ => none

/-- An ingress whose single TLS entry names a secret called
`s, expected type kubernetes.io/tls, got x`. -/
def oddNameIngress : Ingress where
  Name := "ingress"
  Namespace := "default"
  Annotations := fun _ => none
  Spec :=
    { IngressClassName := none
      DefaultBackend := none
      TLS := [⟨[], "s, expected type kubernetes.io/tls, got x"⟩]
      Rules := [] }

/-- A snapshot around `oddNameIngress` that holds no secret at all. -/
def oddNameConfig : IngressConfig where
  AnnotationPrefix := "ingress.pomerium.io"
  Ingress := some oddNameIngress
  Secrets := fun _ => none
  Services := fun _ => none

/-- A secret `default/s` whose type is the string
`x, but the secret wasn't fetched. this is a bug`. -/
def oddTypeSecret : Secret where
  Name := "s"
  Namespace := "default"
  Data := fun _ => none
  Type_ := "x, but the secret wasn't fetched. this is a bug"

/-- An ingress whose single TLS entry names the secret `s`. -/
def oddTypeIngress : Ingress where
  Name := "ingress"
  Namespace := "default"
  Annotations := fun _ => none
  Spec :=
    { IngressClassName := none
      DefaultBackend := none
      TLS := [⟨[], "s"⟩]
      Rules := [] }

/-- A snapshot around `oddTypeIngress` that holds `oddTypeSecret`. -/
def oddTypeConfig : IngressConfig where
  AnnotationPrefix := "ingress.pomerium.io"
  Ingress := some oddTypeIngress
  Secrets := fun n => if n = ⟨"default", "s"⟩ then some (some oddTypeSecret) else none
  Services := fun _ => none

/-- A secret `default/locked` of type `Opaque`. -/
def lockedSecret : Secret where
  Name := "locked"
  Namespace := "default"
  Data := fun _ => none
  Type_ := "Opaque"

/-- The secrets of the snapshots below: the TLS secret `default/secret` and the
`Opaque` secret `default/locked`; there is no secret `default/missing`. -/
def mixedSecrets : NamespacedName → Option (Option Secret) :=
  fun n =>
    if n = ⟨"default", "secret"⟩ then some (some testSecret)
    else if n = ⟨"default", "locked"⟩ then some (some lockedSecret) else none

/-- An ingress whose TLS entries name, in this order, a valid secret, a secret
that is missing, and a secret of type `Opaque`. -/
def missingFirstIngress : Ingress where
  Name := "ingress"
  Namespace := "default"
  Annotations := fun _ => none
  Spec :=
    { IngressClassName := none
      DefaultBackend := none
      TLS := [⟨["a.localhost.pomerium.io"], "secret"⟩, ⟨["b.localhost.pomerium.io"], "missing"⟩,
        ⟨["c.localhost.pomerium.io"], "locked"⟩]
      Rules := [] }

/-- A snapshot around `missingFirstIngress`. -/
def missingFirstConfig : IngressConfig where
  AnnotationPrefix := "ingress.pomerium.io"
  Ingress := some missingFirstIngress
  Secrets := mixedSecrets
  Services := fun _ => none

/-- An ingress whose TLS entries name, in this order, a valid secret, a secret
of type `Opaque`, and a secret that is missing. -/
def lockedFirstIngress : Ingress where
  Name := "ingress"
  Namespace := "default"
  Annotations := fun _ => none
  Spec :=
    { IngressClassName := none
      DefaultBackend := none
      TLS := [⟨["a.localhost.pomerium.io"], "secret"⟩, ⟨["c.localhost.pomerium.io"], "locked"⟩,
        ⟨["b.localhost.pomerium.io"], "missing"⟩]
      Rules := [] }

/-- A snapshot around `lockedFirstIngress`. -/
def lockedFirstConfig : IngressConfig where
  AnnotationPrefix := "ingress.pomerium.io"
  Ingress := some lockedFirstIngress
  Secrets := mixedSecrets
  Services := fun _ => none

/-- A TLS secret `other/secret`: the secret of the controller test, in the namespace `other`. -/
def foreignSecret : Secret where
  Name := "secret"
  Namespace := "other"
  Data := testSecret.Data
  Type_ := "kubernetes.io/tls"

/-- A snapshot around the ingress of the controller test (namespace `default`)
in which the secret name `secret` is present under the namespace `other` only. -/
def foreignConfig : IngressConfig where
  AnnotationPrefix := "ingress.pomerium.io"
  Ingress := some testIngress
  Secrets := fun n => if n = ⟨"other", "secret"⟩ then some (some foreignSecret) else none
  Services := fun _ => none

/-- An ingress in `default` whose TLS entries name `locked`, then `secret`. -/
def lockedThenForeignIngress : Ingress where
  Name := "ingress"
  Namespace := "default"
  Annotations := fun _ => none
  Spec :=
    { IngressClassName := none
      DefaultBackend := none
      TLS := [⟨["c.localhost.pomerium.io"], "locked"⟩, ⟨["a.localhost.pomerium.io"], "secret"⟩]
      Rules := [] }

/-- A snapshot around `lockedThenForeignIngress`: `default/locked` is of type
`Opaque`, and the name `secret` is present under the namespace `other` only. -/
def lockedThenForeignConfig : IngressConfig where
  AnnotationPrefix := "ingress.pomerium.io"
  Ingress := some lockedThenForeignIngress
  Secrets := fun n =>
    if n = ⟨"default", "locked"⟩ then some (some lockedSecret)
    else if n = ⟨"other", "secret"⟩ then some (some foreignSecret) else none
  Services := fun _ => none

/-- The ingress of the controller test with the annotation
`Ingress.Pomerium.IO/Secure_Upstream: "true"`, whose key differs from
`ingress.pomerium.io/secure_upstream` in letter case only. -/
def otherCaseKeyIngress : Ingress where
  Name := "ingress"
  Namespace := "default"
  Annotations := fun k => if k = "Ingress.Pomerium.IO/Secure_Upstream" then some "true" else none
  Spec := testIngress.Spec

/-- A snapshot holding `otherCaseKeyIngress` under the prefix `ingress.pomerium.io`. -/
def otherCaseKeyConfig : IngressConfig where
  AnnotationPrefix := "ingress.pomerium.io"
  Ingress := some otherCaseKeyIngress
  Secrets := testConfig.Secrets
  Services := testConfig.Services

/-- The ingress of the controller test with the annotation
`nginx.ingress.kubernetes.io/secure_upstream: "true"`, under another prefix. -/
def otherPrefixIngress : Ingress where
  Name := "ingress"
  Namespace := "default"
  Annotations := fun k =>
    if k = "nginx.ingress.kubernetes.io/secure_upstream" then some "true" else none
  Spec := testIngress.Spec

/-- A snapshot holding `otherPrefixIngress` under the prefix `ingress.pomerium.io`. -/
def otherPrefixConfig : IngressConfig where
  AnnotationPrefix := "ingress.pomerium.io"
  Ingress := some otherPrefixIngress
  Secrets := testConfig.Secrets
  Services := testConfig.Services

/-- A secret `default/secret` of type `kubernetes.io/tls` with no data at all. -/
def emptySecret : Secret where
  Name := "secret"
  Namespace := "default"
  Data := fun _ => none
  Type_ := "kubernetes.io/tls"

/-- The snapshot of the controller test with the secret replaced by the one without data. -/
def emptySecretConfig : IngressConfig where
  AnnotationPrefix := "ingress.pomerium.io"
  Ingress := some testIngress
  Secrets := fun n => if n = ⟨"default", "secret"⟩ then some (some emptySecret) else none
  Services := fun _ => none

/-- The snapshot of the controller test with the key `default/secret` stored with a nil pointer. -/
def nilSecretConfig : IngressConfig where
  AnnotationPrefix := "ingress.pomerium.io"
  Ingress := some testIngress
  Secrets := fun n => if n = ⟨"default", "secret"⟩ then some none else none
  Services := fun _ => none

/-! ## Lemmas and theorems on `model/ingress_config.go` -/

theorem parseTLSLoop_valid (secrets : NamespacedName → Option (Option Secret)) (ns : String) :
    ∀ (l : List IngressTLS) (certs : List TLSCert),
      (∀ tls ∈ l, ∃ secret, indexPtr secrets ⟨ns, tls.SecretName⟩ = some secret ∧
        secret.Type_ = SecretTypeTLS) →
      ∃ cs, parseTLSLoop secrets ns l certs = (some (certs ++ cs), none) ∧
        List.Forall₂ (fun tls c => ∃ secret,
          indexPtr secrets ⟨ns, tls.SecretName⟩ = some secret ∧ c = certOf secret) l cs := by
  intro l
  induction l with
  | nil =>
    intro certs _
    exact ⟨[], by simp [parseTLSLoop], List.Forall₂.nil⟩
  | cons tls rest ih =>
    intro certs h
    obtain ⟨secret, hs, ht⟩ := h tls (List.mem_cons_self _ _)
    obtain ⟨cs, hcs, hf⟩ := ih (certs ++ [certOf secret])
      (fun t ht => h t (List.mem_cons_of_mem _ ht))
    refine ⟨certOf secret :: cs, ?_, List.Forall₂.cons ⟨secret, hs, rfl⟩ hf⟩
    simp only [parseTLSLoop, hs, ht, ne_eq, not_true_eq_false, if_false]
    simpa [certOf] using hcs

theorem parseTLSLoop_error_iff (secrets : NamespacedName → Option (Option Secret)) (ns : String) :
    ∀ (l : List IngressTLS) (certs : List TLSCert),
      ((parseTLSLoop secrets ns l certs).2 ≠ none ↔ ∃ tls ∈ l, Offending secrets ns tls) ∧
      ((parseTLSLoop secrets ns l certs).2 ≠ none → (parseTLSLoop secrets ns l certs).1 = none) := by
  intro l
  induction l with
  | nil => intro certs; simp [parseTLSLoop]
  | cons tls rest ih =>
    intro certs
    cases hs : indexPtr secrets ⟨ns, tls.SecretName⟩ with
    | none =>
      simp only [parseTLSLoop, hs]
      exact ⟨⟨fun _ => ⟨tls, List.mem_cons_self _ _, Or.inl hs⟩, fun _ => by simp⟩, fun _ => trivial⟩
    | some secret =>
      by_cases ht : secret.Type_ = SecretTypeTLS
      · have hno : ¬ Offending secrets ns tls := by
          rintro (h | ⟨s, h1, h2⟩)
          · rw [hs] at h; cases h
          · rw [hs] at h1; cases h1; exact h2 ht
        simp only [parseTLSLoop, hs, ht, ne_eq, not_true_eq_false, if_false]
        obtain ⟨h1, h2⟩ := ih (certs ++ [⟨indexBytes secret.Data TLSPrivateKeyKey,
          indexBytes secret.Data TLSCertKey⟩])
        refine ⟨?_, h2⟩
        refine h1.trans ?_
        constructor
        · rintro ⟨t, ht, ho⟩; exact ⟨t, List.mem_cons_of_mem _ ht, ho⟩
        · rintro ⟨t, ht, ho⟩
          rcases List.mem_cons.mp ht with rfl | ht
          · exact absurd ho hno
          · exact ⟨t, ht, ho⟩
      · simp only [parseTLSLoop, hs, ne_eq, ht, not_false_eq_true, if_true]
        exact ⟨⟨fun _ => ⟨tls, List.mem_cons_self _ _, Or.inr ⟨secret, hs, ht⟩⟩, fun _ => by simp⟩,
          fun _ => trivial⟩

theorem findServicePort_some (port : String) :
    ∀ (ports : List ServicePort), (∃ sp ∈ ports, sp.Name = port) →
      ∃ pre sp post, ports = pre ++ sp :: post ∧ (∀ q ∈ pre, q.Name ≠ port) ∧
        sp.Name = port ∧ findServicePort port ports = some sp.Port := by
  intro ports
  induction ports with
  | nil => rintro ⟨sp, h, _⟩; cases h
  | cons p rest ih =>
    intro hex
    by_cases hp : p.Name = port
    · exact ⟨[], p, rest, rfl, by simp, hp, by simp [findServicePort, hp]⟩
    · have hrest : ∃ sp ∈ rest, sp.Name = port := by
        obtain ⟨sp, hmem, hn⟩ := hex
        rcases List.mem_cons.mp hmem with rfl | hmem
        · exact absurd hn hp
        · exact ⟨sp, hmem, hn⟩
      obtain ⟨pre, sp, post, he, hpre, hn, hf⟩ := ih hrest
      refine ⟨p :: pre, sp, post, by simp [he], ?_, hn, by simp [findServicePort, hp, hf]⟩
      intro q hq
      rcases List.mem_cons.mp hq with rfl | hq
      · exact hp
      · exact hpre q hq

theorem findServicePort_none_iff (port : String) :
    ∀ (ports : List ServicePort),
      findServicePort port ports = none ↔ ∀ sp ∈ ports, sp.Name ≠ port := by
  intro ports
  induction ports with
  | nil => simp [findServicePort]
  | cons p rest ih =>
    by_cases hp : p.Name = port
    · simp [findServicePort, hp]
    · simp [findServicePort, hp, ih]

/-- C1. `ParseTLSCerts`, success case: when every TLS entry of the ingress names
a secret that the snapshot holds under (ingress namespace, `SecretName`) with
type `kubernetes.io/tls`, the call returns no error and a list with one pair
per TLS entry (the empty, non-nil list for no entries); the pair at index `i`
carries `Data["tls.key"]` and `Data["tls.crt"]` of the secret named by the
`i`-th entry (the bytes stored under the key, the nil slice when the key is
missing), duplicated entries included. -/
theorem ParseTLSCerts_success (ic : IngressConfig) (ing : Ingress)
    (hing : ic.Ingress = some ing)
    (hvalid : ∀ tls ∈ ing.Spec.TLS, ∃ secret,
      ic.Secrets ⟨ing.Namespace, tls.SecretName⟩ = some (some secret) ∧
        secret.Type_ = SecretTypeTLS) :
    ∃ certs, ParseTLSCerts ic = .returns (some certs, none) ∧
      certs.length = ing.Spec.TLS.length ∧
      (ing.Spec.TLS = [] → certs = []) ∧
      ∀ (i : Nat) (tls : IngressTLS), ing.Spec.TLS[i]? = some tls →
        ∃ secret cert, ic.Secrets ⟨ing.Namespace, tls.SecretName⟩ = some (some secret) ∧
          certs[i]? = some cert ∧
          (∀ key, secret.Data "tls.key" = some key → cert.Key = key) ∧
          (secret.Data "tls.key" = none → cert.Key = []) ∧
          (∀ crt, secret.Data "tls.crt" = some crt → cert.Cert = crt) ∧
          (secret.Data "tls.crt" = none → cert.Cert = []) := by
  have hvalid' : ∀ tls ∈ ing.Spec.TLS, ∃ secret,
      indexPtr ic.Secrets ⟨ing.Namespace, tls.SecretName⟩ = some secret ∧
        secret.Type_ = SecretTypeTLS := by
    intro tls h
    obtain ⟨secret, hs, ht⟩ := hvalid tls h
    exact ⟨secret, by simp [indexPtr, hs], ht⟩
  obtain ⟨cs, hrun, hf⟩ := parseTLSLoop_valid ic.Secrets ing.Namespace ing.Spec.TLS [] hvalid'
  refine ⟨cs, by simp [ParseTLSCerts, hing, hrun], hf.length_eq.symm, ?_, ?_⟩
  · intro hnil
    rw [hnil] at hf
    cases hf
    rfl
  · intro i tls hi
    obtain ⟨secret, hs, _⟩ := hvalid tls (List.getElem?_mem hi)
    have hlt : i < ing.Spec.TLS.length := by
      by_contra hge
      rw [List.getElem?_eq_none (Nat.le_of_not_lt hge)] at hi
      cases hi
    have hlt' : i < cs.length := hf.length_eq ▸ hlt
    obtain ⟨secret', hs', hc⟩ := (List.forall₂_iff_get.mp hf).2 i hlt hlt'
    have htls : ing.Spec.TLS.get ⟨i, hlt⟩ = tls := by
      rw [List.getElem?_eq_getElem hlt] at hi
      simpa using hi
    rw [htls] at hs'
    have : secret' = secret := by
      simp [indexPtr, hs] at hs'
      exact hs'.symm
    subst this
    simp only [List.get_eq_getElem] at hc
    refine ⟨secret', certOf secret', hs, ?_, ?_, ?_, ?_, ?_⟩
    · rw [List.getElem?_eq_getElem hlt', hc]
    · intro key hkey
      simp [certOf, TLSPrivateKeyKey, indexBytes, hkey]
    · intro hkey
      simp [certOf, TLSPrivateKeyKey, indexBytes, hkey]
    · intro crt hcrt
      simp [certOf, TLSCertKey, indexBytes, hcrt]
    · intro hcrt
      simp [certOf, TLSCertKey, indexBytes, hcrt]

/-- Witness of C1 on the objects of the controller test: one TLS entry naming
the TLS secret `default/secret`, whose key and certificate are the byte `A`. -/
theorem ParseTLSCerts_success_witness :
    testSecret.Data "tls.key" = some [65] ∧ testSecret.Data "tls.crt" = some [65] ∧
    ParseTLSCerts testConfig = .returns (some [⟨[65], [65]⟩], none) ∧
    ∃ certs, ParseTLSCerts testConfig = .returns (some certs, none) ∧
      certs.length = testIngress.Spec.TLS.length ∧
      (testIngress.Spec.TLS = [] → certs = []) ∧
      ∀ (i : Nat) (tls : IngressTLS), testIngress.Spec.TLS[i]? = some tls →
        ∃ secret cert,
          testConfig.Secrets ⟨testIngress.Namespace, tls.SecretName⟩ = some (some secret) ∧
          certs[i]? = some cert ∧
          (∀ key, secret.Data "tls.key" = some key → cert.Key = key) ∧
          (secret.Data "tls.key" = none → cert.Key = []) ∧
          (∀ crt, secret.Data "tls.crt" = some crt → cert.Cert = crt) ∧
          (secret.Data "tls.crt" = none → cert.Cert = []) :=
  ⟨rfl, rfl, rfl, ParseTLSCerts_success testConfig testIngress rfl (by
    intro tls h
    simp only [testIngress, List.mem_singleton] at h
    subst h
    exact ⟨testSecret, rfl, rfl⟩)⟩

/-- C2. `ParseTLSCerts` fails (returns a non-nil error) exactly when some TLS
entry of the ingress references a secret the snapshot does not hold under the
ingress's namespace, or one whose type is not `kubernetes.io/tls`; whenever it
fails, the certificate list it returns is nil, never a partial list. -/
theorem ParseTLSCerts_fails_iff (ic : IngressConfig) (ing : Ingress)
    (hing : ic.Ingress = some ing) :
    ∃ certs err, ParseTLSCerts ic = .returns (certs, err) ∧
      (err ≠ none ↔ ∃ tls ∈ ing.Spec.TLS, Offending ic.Secrets ing.Namespace tls) ∧
      (err ≠ none → certs = none) := by
  obtain ⟨h1, h2⟩ := parseTLSLoop_error_iff ic.Secrets ing.Namespace ing.Spec.TLS []
  exact ⟨(parseTLSLoop ic.Secrets ing.Namespace ing.Spec.TLS []).1,
    (parseTLSLoop ic.Secrets ing.Namespace ing.Spec.TLS []).2,
    by simp [ParseTLSCerts, hing], h1, h2⟩

/-- Witness of C2 on a snapshot whose only TLS secret is of type `Opaque`. -/
theorem ParseTLSCerts_fails_iff_witness :
    opaqueConfig.Ingress = some testIngress ∧
    ∃ certs err, ParseTLSCerts opaqueConfig = .returns (certs, err) ∧
      (err ≠ none ↔ ∃ tls ∈ testIngress.Spec.TLS,
        Offending opaqueConfig.Secrets testIngress.Namespace tls) ∧
      (err ≠ none → certs = none) :=
  ⟨rfl, ParseTLSCerts_fails_iff opaqueConfig testIngress rfl⟩

/-- C3. `GetServicePortByName`, success case: when the snapshot holds the
service and the service declares a port whose name is exactly the requested
one, the call returns no error and the `Port` of the first such port in
declared order (every port before it has another name). -/
theorem GetServicePortByName_success (ic : IngressConfig) (name : NamespacedName)
    (port : String) (svc : Service)
    (hsvc : ic.Services name = some (some svc))
    (hport : ∃ sp ∈ svc.Spec.Ports, sp.Name = port) :
    ∃ pre sp post, svc.Spec.Ports = pre ++ sp :: post ∧ (∀ q ∈ pre, q.Name ≠ port) ∧
      sp.Name = port ∧ GetServicePortByName ic name port = .returns (sp.Port, none) := by
  obtain ⟨pre, sp, post, he, hpre, hn, hf⟩ := findServicePort_some port svc.Spec.Ports hport
  exact ⟨pre, sp, post, he, hpre, hn, by simp [GetServicePortByName, hsvc, hf]⟩

/-- Witness of C3: the service of the controller test, whose port `http` is 8080, yields 8080. -/
theorem GetServicePortByName_success_witness :
    testConfig.Services ⟨"default", "service"⟩ = some (some testService) ∧
    (∃ sp ∈ testService.Spec.Ports, sp.Name = "http") ∧
    GetServicePortByName testConfig ⟨"default", "service"⟩ "http" = .returns (8080, none) ∧
    ∃ pre sp post, testService.Spec.Ports = pre ++ sp :: post ∧ (∀ q ∈ pre, q.Name ≠ "http") ∧
      sp.Name = "http" ∧
      GetServicePortByName testConfig ⟨"default", "service"⟩ "http" = .returns (sp.Port, none) :=
  ⟨rfl, ⟨⟨"http", "TCP", 8080, 80⟩, by simp [testService], rfl⟩, rfl,
    GetServicePortByName_success testConfig ⟨"default", "service"⟩ "http" testService rfl
      ⟨⟨"http", "TCP", 8080, 80⟩, by simp [testService], rfl⟩⟩

/-- C4. `GetServicePortByName` returns an error exactly when the service identity
is not a key of `Services` or the service stored there declares no port of
the requested name (in particular when its port list is empty); in every
error case the returned port number is 0. -/
theorem GetServicePortByName_error_iff (ic : IngressConfig) (name : NamespacedName)
    (port : String) :
    ((∃ p err, GetServicePortByName ic name port = .returns (p, some err)) ↔
      (ic.Services name = none ∨
        ∃ svc, ic.Services name = some (some svc) ∧ ∀ sp ∈ svc.Spec.Ports, sp.Name ≠ port)) ∧
    (∀ p err, GetServicePortByName ic name port = .returns (p, some err) → p = 0) ∧
    (∀ svc, ic.Services name = some (some svc) → svc.Spec.Ports = [] →
      ∃ err, GetServicePortByName ic name port = .returns (0, some err)) := by
  refine ⟨?_, ?_, ?_⟩
  · cases hs : ic.Services name with
    | none => simp [GetServicePortByName, hs]
    | some p =>
      cases p with
      | none => simp [GetServicePortByName, hs]
      | some svc =>
        cases hf : findServicePort port svc.Spec.Ports with
        | none =>
          have := (findServicePort_none_iff port svc.Spec.Ports).mp hf
          simp only [GetServicePortByName, hs, hf]
          simpa using this
        | some q =>
          have hne : ¬ ∀ sp ∈ svc.Spec.Ports, sp.Name ≠ port := by
            intro h
            rw [(findServicePort_none_iff port svc.Spec.Ports).mpr h] at hf
            cases hf
          simp only [GetServicePortByName, hs, hf]
          simpa using hne
  · intro p err h
    cases hs : ic.Services name with
    | none =>
      simp only [GetServicePortByName, hs, Run.returns.injEq, Prod.mk.injEq] at h
      exact h.1.symm
    | some q =>
      cases q with
      | none => simp [GetServicePortByName, hs] at h
      | some svc =>
        cases hf : findServicePort port svc.Spec.Ports with
        | none =>
          simp only [GetServicePortByName, hs, hf, Run.returns.injEq, Prod.mk.injEq] at h
          exact h.1.symm
        | some q => simp [GetServicePortByName, hs, hf] at h
  · intro svc hs hnil
    exact ⟨⟨portNotFoundMsg port name⟩, by simp [GetServicePortByName, hs, hnil, findServicePort]⟩

theorem unicodeToLower_ascii (tbl : Char → Char) (a : Char) (h : a.toNat ≤ 127) :
    unicodeToLower tbl a = unicodeToLower id a := by
  simp [unicodeToLower, h]

set_option maxRecDepth 100000 in
theorem asciiLower_table :
    ∀ n < 128,
      (unicodeToLower id (Char.ofNat n) = 't' ↔ (n = 116 ∨ n = 84)) ∧
      (unicodeToLower id (Char.ofNat n) = 'r' ↔ (n = 114 ∨ n = 82)) ∧
      (unicodeToLower id (Char.ofNat n) = 'u' ↔ (n = 117 ∨ n = 85)) ∧
      (unicodeToLower id (Char.ofNat n) = 'e' ↔ (n = 101 ∨ n = 69)) := by
  decide

theorem char_eq_iff_toNat (a c : Char) : a = c ↔ a.toNat = c.toNat := by
  constructor
  · intro h; rw [h]
  · intro h; rw [← Char.ofNat_toNat a, h, Char.ofNat_toNat]

theorem unicodeToLower_letter (tbl : Char → Char) (htbl : LowerTableAvoidsTrue tbl) (a : Char) :
    (unicodeToLower tbl a = 't' ↔ (a = 't' ∨ a = 'T')) ∧
    (unicodeToLower tbl a = 'r' ↔ (a = 'r' ∨ a = 'R')) ∧
    (unicodeToLower tbl a = 'u' ↔ (a = 'u' ∨ a = 'U')) ∧
    (unicodeToLower tbl a = 'e' ↔ (a = 'e' ∨ a = 'E')) := by
  by_cases h : a.toNat ≤ 127
  · have ht := asciiLower_table a.toNat (by omega)
    rw [Char.ofNat_toNat] at ht
    rw [unicodeToLower_ascii tbl a h]
    simp only [char_eq_iff_toNat a]
    exact ht
  · have hgt : 127 < a.toNat := by omega
    have hmem := htbl a hgt
    have hlow : unicodeToLower tbl a = tbl a := by simp [unicodeToLower, h]
    simp only [List.mem_cons, List.mem_singleton, List.not_mem_nil, or_false, not_or] at hmem
    rw [hlow]
    simp only [char_eq_iff_toNat a]
    have e1 : ('t' : Char).toNat = 116 := rfl
    have e2 : ('T' : Char).toNat = 84 := rfl
    have e3 : ('r' : Char).toNat = 114 := rfl
    have e4 : ('R' : Char).toNat = 82 := rfl
    have e5 : ('u' : Char).toNat = 117 := rfl
    have e6 : ('U' : Char).toNat = 85 := rfl
    have e7 : ('e' : Char).toNat = 101 := rfl
    have e8 : ('E' : Char).toNat = 69 := rfl
    rw [e1, e2, e3, e4, e5, e6, e7, e8]
    refine ⟨⟨fun x => absurd x hmem.1, ?_⟩, ⟨fun x => absurd x hmem.2.1, ?_⟩,
      ⟨fun x => absurd x hmem.2.2.1, ?_⟩, ⟨fun x => absurd x hmem.2.2.2, ?_⟩⟩ <;> omega

theorem stringsToLower_ascii (tbl : Char → Char) (v : String)
    (h : ∀ c ∈ v.data, c.toNat ≤ 127) : stringsToLower tbl v = stringsToLower id v := by
  unfold stringsToLower
  congr 1
  exact List.map_congr_left (fun c hc => unicodeToLower_ascii tbl c (h c hc))

theorem trueSpellings_lower :
    ∀ v ∈ trueSpellings, (∀ c ∈ v.data, c.toNat ≤ 127) ∧ stringsToLower id v = "true" := by
  decide

theorem stringsToLower_eq_true_iff (tbl : Char → Char) (htbl : LowerTableAvoidsTrue tbl)
    (v : String) : stringsToLower tbl v = "true" ↔ v ∈ trueSpellings := by
  constructor
  · intro h
    have hd : v.data.map (unicodeToLower tbl) = ['t', 'r', 'u', 'e'] := by
      have := congrArg String.data h
      simpa [stringsToLower] using this
    obtain ⟨d⟩ := v
    simp only at hd
    obtain ⟨a, l1, rfl, ha, hd⟩ := List.map_eq_cons_iff.mp hd
    obtain ⟨b, l2, rfl, hb, hd⟩ := List.map_eq_cons_iff.mp hd
    obtain ⟨c, l3, rfl, hc, hd⟩ := List.map_eq_cons_iff.mp hd
    obtain ⟨e, l4, rfl, he, hd⟩ := List.map_eq_cons_iff.mp hd
    obtain rfl := List.map_eq_nil_iff.mp hd
    rcases (unicodeToLower_letter tbl htbl a).1.mp ha with rfl | rfl <;>
    rcases (unicodeToLower_letter tbl htbl b).2.1.mp hb with rfl | rfl <;>
    rcases (unicodeToLower_letter tbl htbl c).2.2.1.mp hc with rfl | rfl <;>
    rcases (unicodeToLower_letter tbl htbl e).2.2.2.mp he with rfl | rfl <;>
    decide
  · intro h
    obtain ⟨hascii, hlow⟩ := trueSpellings_lower v h
    rw [stringsToLower_ascii tbl v hascii, hlow]

theorem sampleLowerTable_avoids : LowerTableAvoidsTrue sampleLowerTable := by
  intro r hr
  unfold sampleLowerTable
  split_ifs
  · decide
  · decide
  · intro hmem
    simp only [List.mem_cons, List.mem_singleton, List.not_mem_nil, or_false] at hmem
    rcases hmem with rfl | rfl | rfl | rfl <;> revert hr <;> decide

/-- C5. `IsSecureUpstream` returns true exactly when the ingress carries an
annotation under the key `AnnotationPrefix` followed by `/secure_upstream`
whose value is `true` in some mix of upper- and lower-case letters (`true`,
`True`, `TRUE`, ...); it returns false when the annotation is absent, empty, or
any other value such as `1`, `yes` or ` true`. -/
theorem IsSecureUpstream_iff (tbl : Char → Char) (htbl : LowerTableAvoidsTrue tbl)
    (ic : IngressConfig) (ing : Ingress) (hing : ic.Ingress = some ing) :
    (IsSecureUpstream tbl ic = .returns true ↔
      ∃ v, ing.Annotations (ic.AnnotationPrefix ++ "/secure_upstream") = some v ∧
        v ∈ trueSpellings) ∧
    (IsSecureUpstream tbl ic = .returns false ↔
      ¬ ∃ v, ing.Annotations (ic.AnnotationPrefix ++ "/secure_upstream") = some v ∧
        v ∈ trueSpellings) ∧
    (∀ v ∈ ["true", "True", "TRUE"],
      ing.Annotations (ic.AnnotationPrefix ++ "/secure_upstream") = some v →
        IsSecureUpstream tbl ic = .returns true) ∧
    (ing.Annotations (ic.AnnotationPrefix ++ "/secure_upstream") = none →
      IsSecureUpstream tbl ic = .returns false) ∧
    (∀ v ∈ ["", "1", "yes", " true"],
      ing.Annotations (ic.AnnotationPrefix ++ "/secure_upstream") = some v →
        IsSecureUpstream tbl ic = .returns false) := by
  have hrun : ∀ b : Bool, IsSecureUpstream tbl ic = .returns b ↔
      (b = true ↔ indexString ing.Annotations (ic.AnnotationPrefix ++ "/secure_upstream")
        ∈ trueSpellings) := by
    intro b
    simp only [IsSecureUpstream, hing, secureUpstreamKey, Run.returns.injEq,
      stringsToLower_eq_true_iff tbl htbl]
    cases b <;> simp
  have hidx : indexString ing.Annotations (ic.AnnotationPrefix ++ "/secure_upstream")
      ∈ trueSpellings ↔
      ∃ v, ing.Annotations (ic.AnnotationPrefix ++ "/secure_upstream") = some v ∧
        v ∈ trueSpellings := by
    cases h : ing.Annotations (ic.AnnotationPrefix ++ "/secure_upstream") with
    | none =>
      simp only [indexString, h]
      constructor
      · intro hm; exact absurd hm (by decide)
      · rintro ⟨v, hv, _⟩; cases hv
    | some w => simp [indexString, h]
  refine ⟨?_, ?_, ?_, ?_, ?_⟩
  · rw [hrun true, ← hidx]; simp
  · rw [hrun false, ← hidx]; simp
  · intro v hv hann
    rw [hrun true, hidx]
    have hyes : ∀ w ∈ ["true", "True", "TRUE"], w ∈ trueSpellings := by decide
    exact ⟨fun _ => ⟨v, hann, hyes v hv⟩, fun _ => rfl⟩
  · intro hann
    rw [hrun false, hidx]
    simp [hann]
  · intro v hv hann
    rw [hrun false, hidx]
    have hno : ∀ w ∈ ["", "1", "yes", " true"], w ∉ trueSpellings := by decide
    have hnot : v ∉ trueSpellings := hno v hv
    simp only [hann, Option.some.injEq, exists_eq_left', hnot, iff_false]
    simp

/-- Witness of C5: the annotation value `True` under `ingress.pomerium.io/secure_upstream`. -/
theorem IsSecureUpstream_iff_witness :
    LowerTableAvoidsTrue sampleLowerTable ∧ secureConfig.Ingress = some secureIngress ∧
    IsSecureUpstream sampleLowerTable secureConfig = .returns true :=
  ⟨sampleLowerTable_avoids, rfl,
    (IsSecureUpstream_iff sampleLowerTable sampleLowerTable_avoids secureConfig secureIngress
      rfl).1.mpr ⟨"True", rfl, by decide⟩⟩

theorem parseTLSLoop_congr (s1 s2 : NamespacedName → Option (Option Secret)) (ns : String) :
    ∀ (l1 l2 : List IngressTLS) (certs : List TLSCert),
      l1.map (fun tls => tls.SecretName) = l2.map (fun tls => tls.SecretName) →
      (∀ tls ∈ l1, SameTLSMaterial (indexPtr s1 ⟨ns, tls.SecretName⟩)
        (indexPtr s2 ⟨ns, tls.SecretName⟩)) →
      parseTLSLoop s1 ns l1 certs = parseTLSLoop s2 ns l2 certs := by
  intro l1
  induction l1 with
  | nil =>
    intro l2 certs hn _
    cases l2 with
    | nil => rfl
    | cons b r => simp at hn
  | cons a rest ih =>
    intro l2 certs hn hs
    cases l2 with
    | nil => simp at hn
    | cons b r =>
      simp only [List.map_cons, List.cons.injEq] at hn
      obtain ⟨hab, hrest⟩ := hn
      have hsame := hs a (List.mem_cons_self _ _)
      have ih' := fun c => ih r c hrest (fun t ht => hs t (List.mem_cons_of_mem _ ht))
      simp only [parseTLSLoop, ← hab]
      cases h1 : indexPtr s1 ⟨ns, a.SecretName⟩ with
      | none =>
        cases h2 : indexPtr s2 ⟨ns, a.SecretName⟩ with
        | none => rfl
        | some y => rw [h1, h2] at hsame; exact absurd hsame id
      | some x =>
        cases h2 : indexPtr s2 ⟨ns, a.SecretName⟩ with
        | none => rw [h1, h2] at hsame; exact absurd hsame id
        | some y =>
          rw [h1, h2] at hsame
          obtain ⟨ht, hk, hc⟩ := hsame
          have hk' : indexBytes x.Data TLSPrivateKeyKey = indexBytes y.Data TLSPrivateKeyKey := hk
          have hc' : indexBytes x.Data TLSCertKey = indexBytes y.Data TLSCertKey := hc
          simp only [ht, hk', hc']
          split_ifs
          · rfl
          · exact ih' _

/-- C6. TLS round trip: two snapshots whose ingresses have the same namespace
and the same sequence of TLS secret names, and whose referenced secrets are
unchanged (same type, same `tls.key` and `tls.crt` bytes), get the same result
from `ParseTLSCerts`: the same key/certificate pairs in the same order, or the
same failure; TLS hosts, annotations, services, rules and unreferenced
secrets play no part. -/
theorem ParseTLSCerts_roundtrip (ic1 ic2 : IngressConfig) (ing1 ing2 : Ingress)
    (h1 : ic1.Ingress = some ing1) (h2 : ic2.Ingress = some ing2)
    (hns : ing1.Namespace = ing2.Namespace)
    (hnames : ing1.Spec.TLS.map (fun tls => tls.SecretName) =
      ing2.Spec.TLS.map (fun tls => tls.SecretName))
    (hsecrets : ∀ tls ∈ ing1.Spec.TLS,
      SameTLSMaterial (indexPtr ic1.Secrets ⟨ing1.Namespace, tls.SecretName⟩)
        (indexPtr ic2.Secrets ⟨ing1.Namespace, tls.SecretName⟩)) :
    ∃ result, ParseTLSCerts ic1 = .returns result ∧ ParseTLSCerts ic2 = .returns result := by
  refine ⟨parseTLSLoop ic1.Secrets ing1.Namespace ing1.Spec.TLS [], ?_, ?_⟩
  · simp [ParseTLSCerts, h1]
  · simp only [ParseTLSCerts, h2, ← hns]
    rw [parseTLSLoop_congr ic1.Secrets ic2.Secrets ing1.Namespace ing1.Spec.TLS ing2.Spec.TLS []
      hnames hsecrets]

/-- Witness of C6: the snapshot of the controller test and `otherConfig` both yield the pair `A`, `A`. -/
theorem ParseTLSCerts_roundtrip_witness :
    ParseTLSCerts testConfig = .returns (some [⟨[65], [65]⟩], none) ∧
    ∃ result, ParseTLSCerts testConfig = .returns result ∧
      ParseTLSCerts otherConfig = .returns result :=
  ⟨rfl, ParseTLSCerts_roundtrip testConfig otherConfig testIngress otherIngress rfl rfl rfl rfl (by
    intro tls h
    simp only [testIngress, List.mem_singleton] at h
    subst h
    exact ⟨rfl, rfl, rfl⟩)⟩

/-- C7. `GetServicePortByName` tells a service missing from the snapshot apart
from a missing port: for all identities and port names, the error returned
for a missing service differs from the error returned for a missing port
(their messages differ). -/
theorem GetServicePortByName_errors_distinct (ic1 ic2 : IngressConfig)
    (name1 name2 : NamespacedName) (port1 port2 : String) (svc : Service)
    (hmissing : ic1.Services name1 = none)
    (hsvc : ic2.Services name2 = some (some svc))
    (hnoport : ∀ sp ∈ svc.Spec.Ports, sp.Name ≠ port2) :
    ∃ e1 e2, GetServicePortByName ic1 name1 port1 = .returns (0, some e1) ∧
      GetServicePortByName ic2 name2 port2 = .returns (0, some e2) ∧
      e1 ≠ e2 ∧ e1.s ≠ e2.s := by
  have hf := (findServicePort_none_iff port2 svc.Spec.Ports).mpr hnoport
  have hne : serviceNotFetchedMsg name1 ≠ portNotFoundMsg port2 name2 := by
    intro h
    have := congrArg String.data h
    simp [serviceNotFetchedMsg, portNotFoundMsg] at this
  refine ⟨⟨serviceNotFetchedMsg name1⟩, ⟨portNotFoundMsg port2 name2⟩,
    by simp [GetServicePortByName, hmissing], by simp [GetServicePortByName, hsvc, hf], ?_, hne⟩
  intro h
  exact hne (congrArg errorString.s h)

/-- Witness of C7: the service `default/absent` is missing, the service
`default/service` has no port `https`. -/
theorem GetServicePortByName_errors_distinct_witness :
    testConfig.Services ⟨"default", "absent"⟩ = none ∧
    testConfig.Services ⟨"default", "service"⟩ = some (some testService) ∧
    (∀ sp ∈ testService.Spec.Ports, sp.Name ≠ "https") ∧
    ∃ e1 e2, GetServicePortByName testConfig ⟨"default", "absent"⟩ "http" = .returns (0, some e1) ∧
      GetServicePortByName testConfig ⟨"default", "service"⟩ "https" = .returns (0, some e2) ∧
      e1 ≠ e2 ∧ e1.s ≠ e2.s :=
  ⟨rfl, rfl, by decide,
    GetServicePortByName_errors_distinct testConfig testConfig ⟨"default", "absent"⟩
      ⟨"default", "service"⟩ "http" "https" testService rfl rfl (by decide)⟩

/-- The texts of the two kinds of error can coincide: the error `ParseTLSCerts`
returns for the secret `s, expected type kubernetes.io/tls, got x`, which was
not fetched, has the text of the error it returns for the secret `s`, which
is present with the type `x, but the secret wasn't fetched. this is a bug`. -/
theorem secret_error_texts_coincide :
    indexPtr oddNameConfig.Secrets
      ⟨"default", "s, expected type kubernetes.io/tls, got x"⟩ = none ∧
    indexPtr oddTypeConfig.Secrets ⟨"default", "s"⟩ = some oddTypeSecret ∧
    oddTypeSecret.Type_ ≠ SecretTypeTLS ∧
    ParseTLSCerts oddNameConfig = .returns (none, some ⟨"secret=s, expected type kubernetes.io/tls, got x, but the secret wasn't fetched. this is a bug"⟩) ∧
    ParseTLSCerts oddTypeConfig = .returns (none, some ⟨"secret=s, expected type kubernetes.io/tls, got x, but the secret wasn't fetched. this is a bug"⟩) := by
  refine ⟨rfl, rfl, by decide, ?_, ?_⟩ <;> decide

theorem parseTLSLoop_skip_valid (secrets : NamespacedName → Option (Option Secret))
    (ns : String) (rest : List IngressTLS) :
    ∀ (pre : List IngressTLS) (certs : List TLSCert),
      (∀ t ∈ pre, ∃ secret, indexPtr secrets ⟨ns, t.SecretName⟩ = some secret ∧
        secret.Type_ = SecretTypeTLS) →
      ∃ cs, parseTLSLoop secrets ns (pre ++ rest) certs =
        parseTLSLoop secrets ns rest (certs ++ cs) := by
  intro pre
  induction pre with
  | nil => intro certs _; exact ⟨[], by simp⟩
  | cons t pre' ih =>
    intro certs h
    obtain ⟨secret, hs, ht⟩ := h t (List.mem_cons_self _ _)
    obtain ⟨cs, hcs⟩ := ih (certs ++ [certOf secret])
      (fun u hu => h u (List.mem_cons_of_mem _ hu))
    refine ⟨certOf secret :: cs, ?_⟩
    simp only [List.cons_append, parseTLSLoop, hs, ht, ne_eq, not_true_eq_false, if_false]
    simpa [certOf] using hcs

theorem secretNotFetchedMsg_eq (name : String) :
    secretNotFetchedMsg name =
      "secret=" ++ name ++ ", but the secret wasn't fetched. this is a bug" := rfl

theorem secretTypeMsg_eq (name actual : String) :
    secretTypeMsg name actual =
      "secret=" ++ name ++ ", expected type kubernetes.io/tls, got " ++ actual := by
  apply String.ext
  simp [secretTypeMsg, SecretTypeTLS]

/-- C11. `ParseTLSCerts` goes through the TLS entries in declared order and
stops at the first offending one: when every entry before `tls` resolves to a
TLS secret and `tls` does not, the error names the secret of `tls`, whatever
the later entries are; an absent secret gives the not-fetched error, a secret
of another type gives the type error with the expected and the actual type. -/
theorem ParseTLSCerts_first_offending (ic : IngressConfig) (ing : Ingress)
    (pre post : List IngressTLS) (tls : IngressTLS)
    (hing : ic.Ingress = some ing)
    (hsplit : ing.Spec.TLS = pre ++ tls :: post)
    (hpre : ∀ t ∈ pre, ∃ secret,
      indexPtr ic.Secrets ⟨ing.Namespace, t.SecretName⟩ = some secret ∧
        secret.Type_ = SecretTypeTLS) :
    (indexPtr ic.Secrets ⟨ing.Namespace, tls.SecretName⟩ = none →
      ParseTLSCerts ic = .returns (none,
        some ⟨"secret=" ++ tls.SecretName ++ ", but the secret wasn't fetched. this is a bug"⟩)) ∧
    (∀ secret, indexPtr ic.Secrets ⟨ing.Namespace, tls.SecretName⟩ = some secret →
      secret.Type_ ≠ SecretTypeTLS →
      ParseTLSCerts ic = .returns (none,
        some ⟨"secret=" ++ tls.SecretName ++ ", expected type kubernetes.io/tls, got "
          ++ secret.Type_⟩)) := by
  obtain ⟨cs, hcs⟩ := parseTLSLoop_skip_valid ic.Secrets ing.Namespace (tls :: post) pre [] hpre
  constructor
  · intro habsent
    simp only [ParseTLSCerts, hing, hsplit, hcs, parseTLSLoop, habsent, secretNotFetchedMsg_eq]
  · intro secret hpresent htype
    simp only [ParseTLSCerts, hing, hsplit, hcs, parseTLSLoop, hpresent, htype, ne_eq,
      not_false_eq_true, if_true, secretTypeMsg_eq]

/-- Witness of C11: with the entries `secret`, `missing`, `locked` the error is
the not-fetched error of `missing`; with the entries `secret`, `locked`,
`missing` it is the type error of `locked`. -/
theorem ParseTLSCerts_first_offending_witness :
    ParseTLSCerts missingFirstConfig = .returns (none,
      some ⟨"secret=missing, but the secret wasn't fetched. this is a bug"⟩) ∧
    ParseTLSCerts lockedFirstConfig = .returns (none,
      some ⟨"secret=locked, expected type kubernetes.io/tls, got Opaque"⟩) :=
  ⟨(ParseTLSCerts_first_offending missingFirstConfig missingFirstIngress
      [⟨["a.localhost.pomerium.io"], "secret"⟩] [⟨["c.localhost.pomerium.io"], "locked"⟩]
      ⟨["b.localhost.pomerium.io"], "missing"⟩ rfl rfl (by
        intro t ht
        simp only [List.mem_singleton] at ht
        subst ht
        exact ⟨testSecret, rfl, rfl⟩)).1 rfl,
    (ParseTLSCerts_first_offending lockedFirstConfig lockedFirstIngress
      [⟨["a.localhost.pomerium.io"], "secret"⟩] [⟨["b.localhost.pomerium.io"], "missing"⟩]
      ⟨["c.localhost.pomerium.io"], "locked"⟩ rfl rfl (by
        intro t ht
        simp only [List.mem_singleton] at ht
        subst ht
        exact ⟨testSecret, rfl, rfl⟩)).2 lockedSecret rfl (by decide)⟩

theorem parseTLSLoop_absent_first (secrets : NamespacedName → Option (Option Secret))
    (ns : String) (tls : IngressTLS) (post : List IngressTLS)
    (habsent : indexPtr secrets ⟨ns, tls.SecretName⟩ = none) :
    ∀ (pre : List IngressTLS) (certs : List TLSCert),
      (∀ t ∈ pre, ∀ secret, indexPtr secrets ⟨ns, t.SecretName⟩ = some secret →
        secret.Type_ = SecretTypeTLS) →
      ∃ t ∈ pre ++ [tls], indexPtr secrets ⟨ns, t.SecretName⟩ = none ∧
        parseTLSLoop secrets ns (pre ++ tls :: post) certs =
          (none, some ⟨secretNotFetchedMsg t.SecretName⟩) := by
  intro pre
  induction pre with
  | nil =>
    intro certs _
    exact ⟨tls, by simp, habsent, by simp [parseTLSLoop, habsent]⟩
  | cons u pre' ih =>
    intro certs h
    cases hu : indexPtr secrets ⟨ns, u.SecretName⟩ with
    | none => exact ⟨u, by simp, hu, by simp [parseTLSLoop, hu]⟩
    | some secret =>
      have ht := h u (List.mem_cons_self _ _) secret hu
      obtain ⟨t, hmem, hnone, hrun⟩ := ih
        (certs ++ [⟨indexBytes secret.Data TLSPrivateKeyKey, indexBytes secret.Data TLSCertKey⟩])
        (fun w hw => h w (List.mem_cons_of_mem _ hw))
      refine ⟨t, by simp only [List.cons_append, List.mem_cons]; exact Or.inr hmem, hnone, ?_⟩
      simp only [List.cons_append, parseTLSLoop, hu, ht, ne_eq, not_true_eq_false, if_false]
      exact hrun

theorem SameTLSMaterial_refl (x : Option Secret) : SameTLSMaterial x x := by
  cases x with
  | none => trivial
  | some a => exact ⟨rfl, rfl, rfl⟩

theorem parseTLSLoop_own_namespace (s1 s2 : NamespacedName → Option (Option Secret))
    (ns : String) (h : ∀ name, s1 ⟨ns, name⟩ = s2 ⟨ns, name⟩) (l : List IngressTLS)
    (certs : List TLSCert) : parseTLSLoop s1 ns l certs = parseTLSLoop s2 ns l certs := by
  apply parseTLSLoop_congr s1 s2 ns l l certs rfl
  intro tls _
  have : indexPtr s1 ⟨ns, tls.SecretName⟩ = indexPtr s2 ⟨ns, tls.SecretName⟩ := by
    simp only [indexPtr, h]
  rw [this]
  exact SameTLSMaterial_refl _

theorem type_error_not_fetched_error (name : String) :
    (⟨"secret=locked, expected type kubernetes.io/tls, got Opaque"⟩ : errorString) ≠
      ⟨secretNotFetchedMsg name⟩ := by
  intro h
  have hs := congrArg (fun e => e.s.data.reverse.head?) h
  simp [secretNotFetchedMsg] at hs

/-- C12, as stated, fails: in `lockedThenForeignConfig` the TLS entry `secret`
is present in `Secrets` under the namespace `other` only, as a valid TLS
secret, yet the error `ParseTLSCerts` returns is the type error of the earlier
entry `locked`, which is no not-fetched error. -/
theorem ParseTLSCerts_foreign_after_locked :
    (⟨["a.localhost.pomerium.io"], "secret"⟩ : IngressTLS) ∈ lockedThenForeignIngress.Spec.TLS ∧
    lockedThenForeignConfig.Secrets ⟨"default", "secret"⟩ = none ∧
    (∃ secret, lockedThenForeignConfig.Secrets ⟨"other", "secret"⟩ = some (some secret) ∧
      secret.Type_ = SecretTypeTLS) ∧
    ParseTLSCerts lockedThenForeignConfig = .returns (none,
      some ⟨"secret=locked, expected type kubernetes.io/tls, got Opaque"⟩) ∧
    ∀ name, (⟨"secret=locked, expected type kubernetes.io/tls, got Opaque"⟩ : errorString) ≠
      ⟨secretNotFetchedMsg name⟩ :=
  ⟨by decide, rfl, ⟨foreignSecret, rfl, rfl⟩, by decide, type_error_not_fetched_error⟩

/-- C12, amended. `ParseTLSCerts` resolves each TLS entry only in the ingress's
own namespace: what `Secrets` holds under other namespaces does not change
the result, and a snapshot in which the secret of a TLS entry is not present
under the ingress's namespace fails, even if a valid TLS secret of that name
is present under another namespace. The error is a not-fetched error when no
earlier TLS entry names a secret of another type than `kubernetes.io/tls`,
and it is the not-fetched error of that entry when every earlier entry
resolves to a TLS secret. -/
theorem ParseTLSCerts_own_namespace (ic : IngressConfig) (ing : Ingress)
    (pre post : List IngressTLS) (tls : IngressTLS)
    (hing : ic.Ingress = some ing)
    (hsplit : ing.Spec.TLS = pre ++ tls :: post)
    (habsent : indexPtr ic.Secrets ⟨ing.Namespace, tls.SecretName⟩ = none) :
    (∃ err, ParseTLSCerts ic = .returns (none, some err)) ∧
    ((∀ t ∈ pre, ∀ secret, indexPtr ic.Secrets ⟨ing.Namespace, t.SecretName⟩ = some secret →
        secret.Type_ = SecretTypeTLS) →
      ∃ t ∈ pre ++ [tls], indexPtr ic.Secrets ⟨ing.Namespace, t.SecretName⟩ = none ∧
        ParseTLSCerts ic = .returns (none,
          some ⟨"secret=" ++ t.SecretName ++ ", but the secret wasn't fetched. this is a bug"⟩)) ∧
    ((∀ t ∈ pre, ∃ secret, indexPtr ic.Secrets ⟨ing.Namespace, t.SecretName⟩ = some secret ∧
        secret.Type_ = SecretTypeTLS) →
      ParseTLSCerts ic = .returns (none,
        some ⟨"secret=" ++ tls.SecretName ++ ", but the secret wasn't fetched. this is a bug"⟩)) ∧
    (∀ secrets : NamespacedName → Option (Option Secret),
      (∀ name, secrets ⟨ing.Namespace, name⟩ = ic.Secrets ⟨ing.Namespace, name⟩) →
        ParseTLSCerts { ic with Secrets := secrets } = ParseTLSCerts ic) := by
  refine ⟨?_, ?_, ?_, ?_⟩
  · obtain ⟨h1, h2⟩ := parseTLSLoop_error_iff ic.Secrets ing.Namespace ing.Spec.TLS []
    have hoff : ∃ t ∈ ing.Spec.TLS, Offending ic.Secrets ing.Namespace t :=
      ⟨tls, by simp [hsplit], Or.inl habsent⟩
    have herr := h1.mpr hoff
    have hnil := h2 herr
    cases he : (parseTLSLoop ic.Secrets ing.Namespace ing.Spec.TLS []).2 with
    | none => exact absurd he herr
    | some err =>
      refine ⟨err, ?_⟩
      simp only [ParseTLSCerts, hing]
      rw [← hnil, ← he]
  · intro hpre
    obtain ⟨t, hmem, hnone, hrun⟩ :=
      parseTLSLoop_absent_first ic.Secrets ing.Namespace tls post habsent pre [] hpre
    exact ⟨t, hmem, hnone, by simp only [ParseTLSCerts, hing, hsplit, hrun, secretNotFetchedMsg_eq]⟩
  · intro hpre
    obtain ⟨cs, hcs⟩ := parseTLSLoop_skip_valid ic.Secrets ing.Namespace (tls :: post) pre [] hpre
    simp only [ParseTLSCerts, hing, hsplit, hcs, parseTLSLoop, habsent, secretNotFetchedMsg_eq]
  · intro secrets hsame
    simp only [ParseTLSCerts, hing]
    rw [parseTLSLoop_own_namespace secrets ic.Secrets ing.Namespace hsame]

/-- Witness of the amended C12: the ingress of the controller test with the
secret `secret` present under the namespace `other` only gets the not-fetched error. -/
theorem ParseTLSCerts_own_namespace_witness :
    foreignConfig.Secrets ⟨"other", "secret"⟩ = some (some foreignSecret) ∧
    foreignSecret.Type_ = SecretTypeTLS ∧
    indexPtr foreignConfig.Secrets ⟨testIngress.Namespace, "secret"⟩ = none ∧
    ParseTLSCerts foreignConfig = .returns (none,
      some ⟨"secret=secret, but the secret wasn't fetched. this is a bug"⟩) :=
  ⟨rfl, rfl, rfl,
    (ParseTLSCerts_own_namespace foreignConfig testIngress [] []
      ⟨["service.localhost.pomerium.io"], "secret"⟩ rfl rfl rfl).2.2.1 (by simp)⟩

/-- C13. In `IsSecureUpstream` the annotation key is matched exactly: when every
annotation of the ingress has a key that differs from `AnnotationPrefix`
followed by `/secure_upstream` (another prefix, or other letter case), the
call returns false, whatever the values are, `true` included. -/
theorem IsSecureUpstream_key_exact (tbl : Char → Char) (ic : IngressConfig) (ing : Ingress)
    (hing : ic.Ingress = some ing)
    (hkeys : ∀ k v, ing.Annotations k = some v →
      k ≠ ic.AnnotationPrefix ++ "/secure_upstream") :
    IsSecureUpstream tbl ic = .returns false := by
  have hnone : ing.Annotations (ic.AnnotationPrefix ++ "/secure_upstream") = none := by
    cases h : ing.Annotations (ic.AnnotationPrefix ++ "/secure_upstream") with
    | none => rfl
    | some v => exact absurd rfl (hkeys _ v h)
  simp only [IsSecureUpstream, hing, secureUpstreamKey, indexString, hnone, stringsToLower]
  rfl

/-- Witness of C13: the value `true` under a key in other letter case, and
under a key with another prefix, both give false. -/
theorem IsSecureUpstream_key_exact_witness :
    otherCaseKeyIngress.Annotations "Ingress.Pomerium.IO/Secure_Upstream" = some "true" ∧
    IsSecureUpstream sampleLowerTable otherCaseKeyConfig = .returns false ∧
    otherPrefixIngress.Annotations "nginx.ingress.kubernetes.io/secure_upstream" = some "true" ∧
    IsSecureUpstream sampleLowerTable otherPrefixConfig = .returns false :=
  ⟨rfl,
    IsSecureUpstream_key_exact sampleLowerTable otherCaseKeyConfig otherCaseKeyIngress rfl (by
      intro k v h
      simp only [otherCaseKeyIngress] at h
      split_ifs at h with hk
      subst hk
      decide),
    rfl,
    IsSecureUpstream_key_exact sampleLowerTable otherPrefixConfig otherPrefixIngress rfl (by
      intro k v h
      simp only [otherPrefixIngress] at h
      split_ifs at h with hk
      subst hk
      decide)⟩

theorem parseTLSLoop_valid_index (secrets : NamespacedName → Option (Option Secret))
    (ns : String) (l : List IngressTLS)
    (hvalid : ∀ tls ∈ l, ∃ secret, indexPtr secrets ⟨ns, tls.SecretName⟩ = some secret ∧
      secret.Type_ = SecretTypeTLS) :
    ∃ cs, parseTLSLoop secrets ns l [] = (some cs, none) ∧
      ∀ (i : Nat) (tls : IngressTLS) (secret : Secret), l[i]? = some tls →
        indexPtr secrets ⟨ns, tls.SecretName⟩ = some secret → cs[i]? = some (certOf secret) := by
  obtain ⟨cs, hrun, hf⟩ := parseTLSLoop_valid secrets ns l [] hvalid
  refine ⟨cs, by simpa using hrun, ?_⟩
  intro i tls secret hi hs
  have hlt : i < l.length := by
    by_contra hge
    rw [List.getElem?_eq_none (Nat.le_of_not_lt hge)] at hi
    cases hi
  have hlt' : i < cs.length := hf.length_eq ▸ hlt
  obtain ⟨secret', hs', hc⟩ := (List.forall₂_iff_get.mp hf).2 i hlt hlt'
  have htls : l.get ⟨i, hlt⟩ = tls := by
    rw [List.getElem?_eq_getElem hlt] at hi
    simpa using hi
  rw [htls, hs] at hs'
  cases hs'
  rw [List.getElem?_eq_getElem hlt']
  simp only [List.get_eq_getElem] at hc
  rw [hc]

theorem parseTLSLoop_list_or_error (secrets : NamespacedName → Option (Option Secret))
    (ns : String) :
    ∀ (l : List IngressTLS) (certs : List TLSCert),
      (∃ cs, parseTLSLoop secrets ns l certs = (some cs, none)) ∨
      (∃ e, parseTLSLoop secrets ns l certs = (none, some e)) := by
  intro l
  induction l with
  | nil => intro certs; exact Or.inl ⟨certs, rfl⟩
  | cons tls rest ih =>
    intro certs
    cases hs : indexPtr secrets ⟨ns, tls.SecretName⟩ with
    | none =>
      exact Or.inr ⟨⟨secretNotFetchedMsg tls.SecretName⟩, by simp only [parseTLSLoop, hs]⟩
    | some secret =>
      by_cases ht : secret.Type_ = SecretTypeTLS
      · simp only [parseTLSLoop, hs, ht, ne_eq, not_true_eq_false, if_false]
        exact ih _
      · exact Or.inr ⟨⟨secretTypeMsg tls.SecretName secret.Type_⟩,
          by simp only [parseTLSLoop, hs, ht, ne_eq, not_false_eq_true, if_true]⟩

theorem indexPtr_withoutNil (secrets : NamespacedName → Option (Option Secret))
    (n : NamespacedName) : indexPtr (withoutNil secrets) n = indexPtr secrets n := by
  unfold indexPtr withoutNil
  cases h : secrets n with
  | none => rfl
  | some p =>
    cases p with
    | none => rfl
    | some s => rfl

/-- C14. `ParseTLSCerts` does not validate secret contents: when every TLS entry
resolves to a secret of type `kubernetes.io/tls`, the call succeeds, and a
secret without `tls.key` gives a pair with an empty `Key`, a secret without
`tls.crt` a pair with an empty `Cert`, a secret without any data a pair with both empty. -/
theorem ParseTLSCerts_no_content_check (ic : IngressConfig) (ing : Ingress)
    (hing : ic.Ingress = some ing)
    (hvalid : ∀ tls ∈ ing.Spec.TLS, ∃ secret,
      ic.Secrets ⟨ing.Namespace, tls.SecretName⟩ = some (some secret) ∧
        secret.Type_ = SecretTypeTLS) :
    ∃ certs, ParseTLSCerts ic = .returns (some certs, none) ∧
      ∀ (i : Nat) (tls : IngressTLS) (secret : Secret), ing.Spec.TLS[i]? = some tls →
        ic.Secrets ⟨ing.Namespace, tls.SecretName⟩ = some (some secret) →
        ∃ cert, certs[i]? = some cert ∧
          (secret.Data "tls.key" = none → cert.Key = []) ∧
          (secret.Data "tls.crt" = none → cert.Cert = []) ∧
          ((∀ k, secret.Data k = none) → cert = ⟨[], []⟩) := by
  have hvalid' : ∀ tls ∈ ing.Spec.TLS, ∃ secret,
      indexPtr ic.Secrets ⟨ing.Namespace, tls.SecretName⟩ = some secret ∧
        secret.Type_ = SecretTypeTLS := by
    intro tls h
    obtain ⟨secret, hs, ht⟩ := hvalid tls h
    exact ⟨secret, by simp [indexPtr, hs], ht⟩
  obtain ⟨cs, hrun, hidx⟩ := parseTLSLoop_valid_index ic.Secrets ing.Namespace ing.Spec.TLS hvalid'
  refine ⟨cs, by simp [ParseTLSCerts, hing, hrun], ?_⟩
  intro i tls secret hi hs
  refine ⟨certOf secret, hidx i tls secret hi (by simp [indexPtr, hs]), ?_, ?_, ?_⟩
  · intro hk
    simp [certOf, TLSPrivateKeyKey, indexBytes, hk]
  · intro hc
    simp [certOf, TLSCertKey, indexBytes, hc]
  · intro hall
    simp [certOf, indexBytes, hall]

/-- Witness of C14: a TLS secret without data gives one pair with empty key and certificate. -/
theorem ParseTLSCerts_no_content_check_witness :
    ParseTLSCerts emptySecretConfig = .returns (some [⟨[], []⟩], none) ∧
    ∃ certs, ParseTLSCerts emptySecretConfig = .returns (some certs, none) ∧
      ∀ (i : Nat) (tls : IngressTLS) (secret : Secret), testIngress.Spec.TLS[i]? = some tls →
        emptySecretConfig.Secrets ⟨testIngress.Namespace, tls.SecretName⟩ = some (some secret) →
        ∃ cert, certs[i]? = some cert ∧
          (secret.Data "tls.key" = none → cert.Key = []) ∧
          (secret.Data "tls.crt" = none → cert.Cert = []) ∧
          ((∀ k, secret.Data k = none) → cert = ⟨[], []⟩) :=
  ⟨rfl, ParseTLSCerts_no_content_check emptySecretConfig testIngress rfl (by
    intro tls h
    simp only [testIngress, List.mem_singleton] at h
    subst h
    exact ⟨emptySecret, rfl, rfl⟩)⟩

/-- C15. `ParseTLSCerts` is total on every snapshot that holds an ingress: the
call ends with a certificate list and no error, or with an error and no list.
A key of `Secrets` stored with a nil pointer is treated like a key that is
absent: removing such keys does not change the result, and a TLS entry that
reaches such a key gets the not-fetched error. -/
theorem ParseTLSCerts_total (ic : IngressConfig) (ing : Ingress)
    (hing : ic.Ingress = some ing) :
    ((∃ certs, ParseTLSCerts ic = .returns (some certs, none)) ∨
      (∃ err, ParseTLSCerts ic = .returns (none, some err))) ∧
    ParseTLSCerts { ic with Secrets := withoutNil ic.Secrets } = ParseTLSCerts ic ∧
    (∀ (pre post : List IngressTLS) (tls : IngressTLS),
      ing.Spec.TLS = pre ++ tls :: post →
      (∀ t ∈ pre, ∃ secret, indexPtr ic.Secrets ⟨ing.Namespace, t.SecretName⟩ = some secret ∧
        secret.Type_ = SecretTypeTLS) →
      (ic.Secrets ⟨ing.Namespace, tls.SecretName⟩ = some none ∨
        ic.Secrets ⟨ing.Namespace, tls.SecretName⟩ = none) →
      ParseTLSCerts ic = .returns (none,
        some ⟨"secret=" ++ tls.SecretName ++ ", but the secret wasn't fetched. this is a bug"⟩)) := by
  refine ⟨?_, ?_, ?_⟩
  · rcases parseTLSLoop_list_or_error ic.Secrets ing.Namespace ing.Spec.TLS [] with
      ⟨cs, h⟩ | ⟨e, h⟩
    · exact Or.inl ⟨cs, by simp [ParseTLSCerts, hing, h]⟩
    · exact Or.inr ⟨e, by simp [ParseTLSCerts, hing, h]⟩
  · simp only [ParseTLSCerts, hing]
    rw [parseTLSLoop_congr (withoutNil ic.Secrets) ic.Secrets ing.Namespace ing.Spec.TLS
      ing.Spec.TLS [] rfl]
    intro tls _
    rw [indexPtr_withoutNil]
    exact SameTLSMaterial_refl _
  · intro pre post tls hsplit hpre hnil
    have habsent : indexPtr ic.Secrets ⟨ing.Namespace, tls.SecretName⟩ = none := by
      rcases hnil with h | h <;> simp [indexPtr, h]
    obtain ⟨cs, hcs⟩ := parseTLSLoop_skip_valid ic.Secrets ing.Namespace (tls :: post) pre [] hpre
    simp only [ParseTLSCerts, hing, hsplit, hcs, parseTLSLoop, habsent, secretNotFetchedMsg_eq]

/-- Witness of C15: with the key `default/secret` stored with a nil pointer the
call returns the not-fetched error, as it does once the key is removed. -/
theorem ParseTLSCerts_total_witness :
    nilSecretConfig.Secrets ⟨"default", "secret"⟩ = some none ∧
    withoutNil nilSecretConfig.Secrets ⟨"default", "secret"⟩ = none ∧
    ParseTLSCerts nilSecretConfig = .returns (none,
      some ⟨"secret=secret, but the secret wasn't fetched. this is a bug"⟩) ∧
    ParseTLSCerts { nilSecretConfig with Secrets := withoutNil nilSecretConfig.Secrets } =
      ParseTLSCerts nilSecretConfig :=
  ⟨rfl, rfl,
    (ParseTLSCerts_total nilSecretConfig testIngress rfl).2.2 [] []
      ⟨["service.localhost.pomerium.io"], "secret"⟩ rfl (by simp) (Or.inl rfl),
    (ParseTLSCerts_total nilSecretConfig testIngress rfl).2.1⟩

theorem recordBuild_tracks (st : EngineState) (ing : Ingress) :
    Tracks (recordBuild st ing) ing.identity ing := by
  refine ⟨?_, ?_, ?_⟩
  · simp only [recordBuild]
    split_ifs with h
    · exact h
    · exact List.mem_cons_self _ _
  · intro dep hdep
    simp [recordBuild, Registry.setEdges, hdep]
  · intro dep hdep
    simp [recordBuild, Registry.setEdges, hdep]


end Pomerium
